import Mathlib

/-!
Shallow embedding of the media-downloader app (src/app.py) and proofs about
the claims of its specification.

The program shells out to an external tool (yt-dlp) and renders a web UI.
Subprocess interaction and JSON decoding are external boundaries: they are
modelled as explicit outcome values fed to the embedded functions, and every
branch of each embedded function is annotated with the source lines it
translates.  UI calls (st.info, st.error, ...) are modelled as an emitted
list of messages.
-/

namespace MediaDL

/-- Messages emitted through the UI (st.info / st.warning / st.error /
st.success / st.caption calls in src/app.py). -/
inductive Msg where
  | info (s : String)
  | warning (s : String)
  | error (s : String)
  | success (s : String)
  | caption (s : String)
deriving DecidableEq, Repr

/-- Python string interpolation of a value that may be None: an f-string
renders the Python value None as the text "None" (relevant at
src/app.py:66, where the video id may be absent). -/
def pyOptStr : Option String → String
  | some s => s
  | none => "None"

/-- Abstract content of one line of the stdout of the flat-playlist yt-dlp
invocation, after the split at newlines (src/app.py:53).  json.loads is an
external boundary: a line is either empty (skipped by the `if line` test at
src/app.py:54), fails to decode (raises json.JSONDecodeError, caught at
src/app.py:69), or decodes to an object whose relevant fields are read with
dict.get (src/app.py:59-68).  A JSON null field is not distinguished from an
absent one. -/
inductive Line where
  | emptyLine
  | malformed (raw : String)
  | parsed (id : Option String) (title : Option String) (playlist_index : Option Nat)
deriving DecidableEq, Repr

/-- Whether a line decodes successfully (used to phrase the ordinal claim of
the specification, which counts valid preceding lines). -/
def isValidLine : Line → Bool
  | .parsed _ _ _ => true
  | _ => false

/-- Normalized video record built by the metadata fetcher
(src/app.py:63-68 for playlist entries, src/app.py:104-108 for a single
video, where no filename_playlist_index key is produced). -/
structure VideoRecord where
  id : Option String
  title : String
  url : String
  filename_playlist_index : Option Nat
deriving DecidableEq, Repr

/-- The record built for a decoded playlist line at 0-based enumeration
position i (src/app.py:56-68): the ordinal is the playlist_index field if
present, otherwise i + 1; it feeds the default title and the
filename_playlist_index field, and the url field is constructed from the id
field. -/
def lineRecord (i : Nat) (id : Option String) (title : Option String)
    (playlist_index : Option Nat) : VideoRecord :=
  let actual_playlist_index_for_naming := playlist_index.getD (i + 1)
  { id := id
    title := title.getD ("Untitled Video " ++ toString actual_playlist_index_for_naming)
    url := "https://www.youtube.com/watch?v=" ++ pyOptStr id
    filename_playlist_index := some actual_playlist_index_for_naming }

/-- The enumeration loop of get_playlist_info (src/app.py:53-70): i is the
enumeration counter over all split lines; empty lines are skipped, malformed
lines emit a warning and are skipped, decoded lines append a record. -/
def processLines (i : Nat) : List Line → List VideoRecord × List Msg
  | [] => ([], [])
  | .emptyLine :: rest => processLines (i + 1) rest
  | .malformed raw :: rest =>
    ((processLines (i + 1) rest).1,
     .warning ("Could not parse video info line: " ++ raw) :: (processLines (i + 1) rest).2)
  | .parsed id title playlist_index :: rest =>
    (lineRecord i id title playlist_index :: (processLines (i + 1) rest).1,
     (processLines (i + 1) rest).2)

/-- Outcome of the subprocess run inside get_playlist_info: the external
boundary of Popen/communicate (src/app.py:39-40).  stdoutLines is the result
of stdout.strip().split(newline); a stripped-empty stdout is modelled as the
empty list.  stderr is carried for the diagnostics of the non-zero-exit
branch.  timeout models subprocess.TimeoutExpired (src/app.py:72), exc any
other exception (src/app.py:75). -/
inductive FetchOutcome where
  | completes (returncode : Int) (stdoutLines : List Line) (stderr : String)
  | timeout
  | exc (msg : String)
deriving DecidableEq, Repr

/-- Embedding of get_playlist_info (src/app.py:25-77).  Returns the list of
video records together with the emitted UI messages.  The raw-stdout warning
of the non-zero-exit branch (src/app.py:45) is elided because stdout is
modelled line-wise; the unconditional error and the stderr diagnostic are
kept. -/
def get_playlist_info (outcome : FetchOutcome) : List VideoRecord × List Msg :=
  match outcome with
  | .completes returncode stdoutLines stderr =>
    if returncode ≠ 0 then
      -- src/app.py:42-46
      ([], Msg.error ("Error fetching playlist info (yt-dlp exited with "
              ++ toString returncode ++ "):")
            :: (if stderr ≠ "" then [Msg.error ("stderr: " ++ stderr)] else []))
    else if stdoutLines.isEmpty then
      -- src/app.py:49-51
      ([], [Msg.warning
        "No output from yt-dlp for playlist info. The playlist might be empty or private."])
    else
      -- src/app.py:53-71
      processLines 0 stdoutLines
  | .timeout =>
    -- src/app.py:72-74
    ([], [Msg.error
      "Fetching playlist info timed out. The playlist might be very large or there could be network issues."])
  | .exc msg =>
    -- src/app.py:75-77
    ([], [Msg.error ("An exception occurred while fetching playlist info: " ++ msg)])

/-- Abstract stdout of the single-video yt-dlp invocation: empty after
stripping (src/app.py:100), a whole-stdout json.loads failure
(src/app.py:112), or a decoded object (src/app.py:103-107). -/
inductive SingleStdout where
  | emptyOut
  | malformed (raw : String)
  | parsed (id : Option String) (title : Option String)
deriving DecidableEq, Repr

/-- Outcome of the subprocess run inside get_single_video_info
(src/app.py:91-92). -/
inductive SingleFetchOutcome where
  | completes (returncode : Int) (stdout : SingleStdout) (stderr : String)
  | timeout
  | exc (msg : String)
deriving DecidableEq, Repr

/-- Embedding of get_single_video_info (src/app.py:79-117).  The returned
record keeps the original URL of the caller (src/app.py:107) and carries no
filename_playlist_index key. -/
def get_single_video_info (video_url : String) (outcome : SingleFetchOutcome) :
    Option VideoRecord × List Msg :=
  match outcome with
  | .completes returncode stdout stderr =>
    if returncode ≠ 0 then
      -- src/app.py:94-98
      (none, Msg.error ("Error fetching video info (yt-dlp exited with "
              ++ toString returncode ++ "):")
            :: (if stderr ≠ "" then [Msg.error ("stderr: " ++ stderr)] else []))
    else
      match stdout with
      | .emptyOut =>
        -- src/app.py:100-102
        (none, [Msg.warning "No output from yt-dlp for single video info."])
      | .malformed raw =>
        -- src/app.py:112-114
        (none, [Msg.error ("Could not parse single video JSON: " ++ raw)])
      | .parsed id title =>
        -- src/app.py:103-108
        (some { id := id
                title := title.getD "Untitled Video"
                url := video_url
                filename_playlist_index := none }, [])
  | .timeout =>
    -- src/app.py:109-111
    (none, [Msg.error "Fetching single video info timed out."])
  | .exc msg =>
    -- src/app.py:115-117
    (none, [Msg.error ("An exception occurred while fetching single video info: " ++ msg)])

/-! Download invoker: download_video_yt_dlp (src/app.py:119-210).  The
filesystem is modelled as the list of existing paths; directory existence and
the os.makedirs outcome are explicit booleans; the subprocess interaction is
an outcome value. -/

/-- posixpath.join for the two-argument uses in src/app.py (os.path.join at
src/app.py:141): if the second part is absolute it wins; otherwise a
separator is inserted unless the first part is empty or already ends in
one. -/
def ospath_join (a b : String) : String :=
  if b.startsWith "/" then b
  else if a = "" then b
  else if a.endsWith "/" then a ++ b
  else a ++ "/" ++ b

/-- The output filename template of src/app.py:133-138: with an index the
filename is "(index) - (title).(ext)" where title and ext are placeholders
resolved by yt-dlp, otherwise just "(title).(ext)". -/
def output_template_str (playlist_index_for_filename : Option Nat) : String :=
  match playlist_index_for_filename with
  | some i => toString i ++ " - %(title)s.%(ext)s"
  | none => "%(title)s.%(ext)s"

/-- The argument vector of the download invocation (src/app.py:143-151). -/
def build_command (video_url full_output_template : String) : List String :=
  ["yt-dlp", "-o", full_output_template, "--no-simulate", "--print", "filename", video_url]

/-- Python str.strip(): remove leading and trailing whitespace. -/
def pyStrip (s : String) : String :=
  String.mk (((s.data.dropWhile Char.isWhitespace).reverse.dropWhile Char.isWhitespace).reverse)

/-- The per-line strip-and-keep-nonempty loop applied to each captured output
stream (src/app.py:164-177). -/
def stripLines (ls : List String) : List String :=
  (ls.map pyStrip).filter (fun l => l != "")

/-- The joined stream text used for diagnostics (src/app.py:181-182). -/
def joinedOutput (ls : List String) : String :=
  String.intercalate "\n" (stripLines ls)

/-- Outcome of the download subprocess.  completes: both streams reached end
of file and process.wait returned a code.  waitTimeout: process.wait raised
subprocess.TimeoutExpired (src/app.py:201); the streams read so far are
carried, and stillRunning is the process.poll() is None test of
src/app.py:204.  exc: any other exception (src/app.py:208). -/
inductive DLOutcome where
  | completes (returncode : Int) (stdoutRaw stderrRaw : List String)
  | waitTimeout (stdoutRaw stderrRaw : List String) (stillRunning : Bool)
  | exc (msg : String)
deriving DecidableEq, Repr

/-- Result of a download call: the returned path (None on failure), the
emitted UI messages, and whether process.kill() was called. -/
structure DLResult where
  result : Option String
  msgs : List Msg
  killed : Bool
deriving DecidableEq, Repr

/-- Embedding of download_video_yt_dlp (src/app.py:119-210).  dirExists and
mkdirOk model os.path.exists(download_path) and the os.makedirs try/except
(src/app.py:124-129; the OSError text is elided from the message).  fs is
the set of paths for which os.path.exists is true at the check of
src/app.py:188. -/
def download_video_yt_dlp (video_url download_path : String)
    (playlist_index_for_filename : Option Nat) (dirExists mkdirOk : Bool)
    (fs : List String) (outcome : DLOutcome) : DLResult :=
  if ¬dirExists ∧ ¬mkdirOk then
    -- src/app.py:124-129
    { result := none
      msgs := [Msg.error ("Failed to create download directory " ++ download_path)]
      killed := false }
  else
    -- src/app.py:131-154
    let full_output_template :=
      ospath_join download_path (output_template_str playlist_index_for_filename)
    let command := build_command video_url full_output_template
    let header := [Msg.info ("Attempting to download: " ++ video_url),
                   Msg.caption ("yt-dlp command: " ++ String.intercalate " " command)]
    match outcome with
    | .completes returncode stdoutRaw stderrRaw =>
      let stdout_lines := stripLines stdoutRaw
      let stderr_lines := stripLines stderrRaw
      let stdout_full := String.intercalate "\n" stdout_lines
      let stderr_full := String.intercalate "\n" stderr_lines
      if returncode = 0 ∧ ¬stdout_lines.isEmpty then
        -- src/app.py:184-187: the last stdout line is the authoritative path
        let downloaded_file_path := stdout_lines.getLastD ""
        if fs.contains downloaded_file_path then
          -- src/app.py:188-190
          { result := some downloaded_file_path
            msgs := header ++ [Msg.success ("Server download complete: " ++ downloaded_file_path)]
            killed := false }
        else
          -- src/app.py:191-195
          { result := none
            msgs := header
              ++ [Msg.error ("yt-dlp reported success, but file not found: " ++ downloaded_file_path)]
              ++ (if stdout_full ≠ "" then [Msg.info ("yt-dlp stdout:\n" ++ stdout_full)] else [])
              ++ (if stderr_full ≠ "" then [Msg.warning ("yt-dlp stderr:\n" ++ stderr_full)] else [])
            killed := false }
      else
        -- src/app.py:196-200
        { result := none
          msgs := header
            ++ [Msg.error ("Download failed for " ++ video_url ++ " (yt-dlp exit code: "
                  ++ toString returncode ++ ").")]
            ++ (if stdout_full ≠ "" then [Msg.info ("yt-dlp stdout:\n" ++ stdout_full)] else [])
            ++ (if stderr_full ≠ "" then [Msg.warning ("yt-dlp stderr:\n" ++ stderr_full)] else [])
          killed := false }
    | .waitTimeout _ _ stillRunning =>
      -- src/app.py:201-207
      { result := none
        msgs := header
          ++ [Msg.error ("Download timed out for " ++ video_url
                ++ ". The video might be too large or network slow.")]
          ++ (if stillRunning then [Msg.warning "yt-dlp process was killed due to timeout."] else [])
        killed := stillRunning }
    | .exc msg =>
      -- src/app.py:208-210
      { result := none
        msgs := header ++ [Msg.error ("An unexpected error occurred during download: " ++ msg)]
        killed := false }

/-! Job state store and UI state machine (src/app.py:222-354).  The
download_status dict is modelled as an association list keyed by the video id
(an Option String: the id key is always present in the fetched dicts but its
value may be None), with Python dict semantics: assignment replaces the value
of an existing key and appends a new key at the end. -/

/-- Per-video job status entry: the status string and the path-or-message
payload (src/app.py:228). -/
inductive StatusTag where
  | pending
  | processing
  | completed
  | failed
deriving DecidableEq, Repr

/-- One value of the download_status dict: the path key is absent for pending
and processing entries. -/
structure JobStatus where
  status : StatusTag
  path : Option String
deriving DecidableEq, Repr

/-- Python dict assignment d[k] = v on an association list: replace in place
or append. -/
def dictInsert (k : Option String) (v : JobStatus) :
    List (Option String × JobStatus) → List (Option String × JobStatus)
  | [] => [(k, v)]
  | (k1, v1) :: rest =>
    if k1 = k then (k, v) :: rest else (k1, v1) :: dictInsert k v rest

/-- Python dict lookup d.get(k). -/
def dictGet (k : Option String) : List (Option String × JobStatus) → Option JobStatus
  | [] => none
  | (k1, v) :: rest => if k1 = k then some v else dictGet k rest

/-- Each key occurs at most once in the association list (the defining
property of a Python dict). -/
def keysNodup : List (Option String × JobStatus) → Bool
  | [] => true
  | (k, _) :: rest => !(rest.any (fun kv => kv.1 == k)) && keysNodup rest

/-- The session state of src/app.py:222-229: the submitted URL, the working
set of fetched records, and the download_status dict. -/
structure SessionState where
  url_input : String
  videos_to_process : List VideoRecord
  download_status : List (Option String × JobStatus)
deriving DecidableEq, Repr

/-- The displayed status of a video id: the stored entry, or a default
pending entry when none is stored (src/app.py:281). -/
def statusOf (s : SessionState) (k : Option String) : JobStatus :=
  (dictGet k s.download_status).getD { status := .pending, path := none }

/-- The status entry recorded after a download attempt
(src/app.py:316-319): completed with the path when the invoker returned a
path that exists (fs again models os.path.exists), otherwise failed with the
fixed text. -/
def finishResult (fs : List String) (downloaded : Option String) : JobStatus :=
  match downloaded with
  | some p =>
    if fs.contains p then { status := .completed, path := some p }
    else { status := .failed, path := some "Server download failed." }
  | none => { status := .failed, path := some "Server download failed." }

/-- The user-interaction events that mutate the session state.  fetch: the
fetch button or a changed URL (src/app.py:234-261); startDownload: the
per-video start button, rendered only for a pending status
(src/app.py:288-291); finishDownload: the rerun that finds a processing
status and runs the invoker, carrying the invoker result and the filesystem
(src/app.py:306-320); cleanDir: the sidebar cleanup button
(src/app.py:331-352). -/
inductive Event where
  | fetch (newUrl : String) (fetched : List VideoRecord)
  | startDownload (k : Option String)
  | finishDownload (k : Option String) (fs : List String) (downloaded : Option String)
  | cleanDir
deriving DecidableEq, Repr

/-- Whether the event resets the whole status store (src/app.py:238-239 and
src/app.py:350-351). -/
def isReset : Event → Bool
  | .fetch _ _ => true
  | .cleanDir => true
  | _ => false

/-- The video id an event acts on, if any. -/
def eventKey : Event → Option (Option String)
  | .startDownload k => some k
  | .finishDownload k _ _ => some k
  | _ => none

/-- One step of the UI state machine.  Returns none when the guard of the event
does not hold (the UI does not offer the action): the start button exists
only for a displayed pending status, and the invoker block runs only for a
displayed processing status. -/
def step (s : SessionState) : Event → Option SessionState
  | .fetch newUrl fetched =>
    -- src/app.py:237-239 reset, then src/app.py:247-258 populate
    some { url_input := newUrl, videos_to_process := fetched, download_status := [] }
  | .startDownload k =>
    -- src/app.py:288-291
    if (statusOf s k).status = .pending then
      some { s with download_status := dictInsert k { status := .processing, path := none } s.download_status }
    else none
  | .finishDownload k fs downloaded =>
    -- src/app.py:306-320
    if (statusOf s k).status = .processing then
      some { s with download_status := dictInsert k (finishResult fs downloaded) s.download_status }
    else none
  | .cleanDir =>
    -- src/app.py:350-351
    some { s with download_status := [] }

/-- Progress rank of a status: terminal states rank highest. -/
def rank : StatusTag → Nat
  | .pending => 0
  | .processing => 1
  | .completed => 2
  | .failed => 2

/-! URL classifier: is_playlist (src/app.py:12-22).  The two regular
expressions of src/app.py:15-18 use only literals, optional groups and
one-or-more character classes, so they are embedded with a small executable
matcher over lists of characters; re.search scans every start position. -/

/-- Test whether the first list stands at the front of the second
(the building block of the substring test and of literal matching). -/
def leadsWith : List Char → List Char → Bool
  | [], _ => true
  | _ :: _, [] => false
  | a :: as, b :: bs => a == b && leadsWith as bs

/-- The Python substring test, pat in s, over character lists
(src/app.py:22). -/
def containsSub (pat : List Char) : List Char → Bool
  | [] => leadsWith pat []
  | c :: rest => leadsWith pat (c :: rest) || containsSub pat rest

/-- Abstract syntax of the regular-expression fragment used by the two
patterns of src/app.py:15-18: literals, optional groups, concatenation, and
one-or-more repetitions of a character class. -/
inductive Regex where
  | lit (s : String)
  | opt (r : Regex)
  | cat (a b : Regex)
  | plusCls (p : Char → Bool)

/-- Remainders after consuming one or more leading characters satisfying p
(the matcher for a one-or-more character class). -/
def plusRems (p : Char → Bool) : List Char → List (List Char)
  | [] => []
  | c :: rest => if p c then rest :: plusRems p rest else []

/-- All remainders after matching a regex at the front of the input. -/
def matchRem : Regex → List Char → List (List Char)
  | .lit s, cs => if leadsWith s.data cs then [cs.drop s.data.length] else []
  | .opt r, cs => cs :: matchRem r cs
  | .cat a b, cs => (matchRem a cs).flatMap (fun m => matchRem b m)
  | .plusCls p, cs => plusRems p cs

/-- All suffixes of a character list (the candidate start positions of
re.search). -/
def tailsL : List Char → List (List Char)
  | [] => [[]]
  | c :: rest => (c :: rest) :: tailsL rest

/-- re.search as a boolean: the pattern matches at some start position. -/
def regexSearch (r : Regex) (cs : List Char) : Bool :=
  (tailsL cs).any (fun t => !(matchRem r t).isEmpty)

/-- The character class of the capture groups of src/app.py:16-17:
ASCII letters, digits, underscore and hyphen. -/
def idChar (c : Char) : Bool :=
  c.isAlphanum || c == '_' || c == '-'

/-- The optional scheme part of both patterns: an optional non-capturing
group "http", optional "s", "://". -/
def optProto : Regex :=
  .opt (.cat (.lit "http") (.cat (.opt (.lit "s")) (.lit "://")))

/-- The optional "www." part of both patterns. -/
def optWww : Regex := .opt (.lit "www.")

/-- The pattern of src/app.py:16: an optional scheme, optional "www.", the
literal playlist path with its list query parameter, and the id class. -/
def playlistPattern1 : Regex :=
  .cat optProto (.cat optWww (.cat (.lit "youtube.com/playlist?list=") (.plusCls idChar)))

/-- The pattern of src/app.py:17: an optional scheme, optional "www.", the
watch path with a v parameter, then the list parameter. -/
def playlistPattern2 : Regex :=
  .cat optProto (.cat optWww (.cat (.lit "youtube.com/watch?v=")
    (.cat (.plusCls idChar) (.cat (.lit "&list=") (.plusCls idChar)))))

/-- Embedding of is_playlist (src/app.py:12-22): true when either pattern
matches somewhere in the URL, falling back to the substring test. -/
def is_playlist (url : String) : Bool :=
  regexSearch playlistPattern1 url.data || regexSearch playlistPattern2 url.data
    || containsSub ("list=".data) url.data

/-- Modelled from the spec for the refinement claim: the simple substring
predicate, list= in url, that is_playlist is claimed to be extensionally
equal to. -/
def simple_list_check (url : String) : Bool :=
  containsSub ("list=".data) url.data

/-! Lemmas about the substring test and the regex matcher. -/

theorem leadsWith_append_ext (pat : List Char) :
    ∀ t e : List Char, leadsWith pat t = true → leadsWith pat (t ++ e) = true := by
  induction pat with
  | nil => intro t e _; simp [leadsWith]
  | cons a as ih =>
    intro t e h
    cases t with
    | nil => simp [leadsWith] at h
    | cons b bs =>
      simp only [leadsWith, Bool.and_eq_true, List.cons_append] at h ⊢
      exact ⟨h.1, ih bs e h.2⟩

theorem leadsWith_ex (pat : List Char) :
    ∀ cs : List Char, leadsWith pat cs = true → ∃ rest, cs = pat ++ rest := by
  induction pat with
  | nil => intro cs _; exact ⟨cs, rfl⟩
  | cons a as ih =>
    intro cs h
    cases cs with
    | nil => simp [leadsWith] at h
    | cons b bs =>
      simp only [leadsWith, Bool.and_eq_true, beq_iff_eq] at h
      obtain ⟨rest, hr⟩ := ih bs h.2
      exact ⟨rest, by simp [h.1, hr]⟩

theorem containsSub_nil_pat (cs : List Char) : containsSub [] cs = true := by
  cases cs <;> simp [containsSub, leadsWith]

theorem containsSub_append_right (pat : List Char) :
    ∀ a b : List Char, containsSub pat a = true → containsSub pat (a ++ b) = true := by
  intro a
  induction a with
  | nil =>
    intro b h
    simp only [containsSub] at h
    obtain ⟨rest, hr⟩ := leadsWith_ex pat [] h
    have : pat = [] := by
      cases pat with
      | nil => rfl
      | cons x xs => simp at hr
    simpa [this] using containsSub_nil_pat b
  | cons c rest ih =>
    intro b h
    simp only [containsSub, Bool.or_eq_true] at h ⊢
    rcases h with h | h
    · exact Or.inl (leadsWith_append_ext pat (c :: rest) b h)
    · exact Or.inr (ih b h)

theorem containsSub_append_left (pat : List Char) :
    ∀ pre t : List Char, containsSub pat t = true → containsSub pat (pre ++ t) = true := by
  intro pre
  induction pre with
  | nil => intro t h; simpa using h
  | cons c cs ih =>
    intro t h
    simp only [List.cons_append, containsSub, Bool.or_eq_true]
    exact Or.inr (ih t h)

theorem containsSub_of_leadsWith (pat w cs : List Char)
    (hw : containsSub pat w = true) (h : leadsWith w cs = true) :
    containsSub pat cs = true := by
  obtain ⟨rest, hr⟩ := leadsWith_ex w cs h
  rw [hr]
  exact containsSub_append_right pat w rest hw

theorem mem_tailsL (cs : List Char) :
    ∀ t, t ∈ tailsL cs → ∃ p, p ++ t = cs := by
  induction cs with
  | nil =>
    intro t ht
    simp only [tailsL, List.mem_singleton] at ht
    exact ⟨[], by simp [ht]⟩
  | cons c rest ih =>
    intro t ht
    simp only [tailsL, List.mem_cons] at ht
    rcases ht with ht | ht
    · exact ⟨[], by simp [ht]⟩
    · obtain ⟨p, hp⟩ := ih t ht
      exact ⟨c :: p, by simp [hp]⟩

theorem plusRems_suffix (p : Char → Bool) :
    ∀ cs rem, rem ∈ plusRems p cs → ∃ pre, pre ++ rem = cs := by
  intro cs
  induction cs with
  | nil => intro rem h; simp [plusRems] at h
  | cons c rest ih =>
    intro rem h
    simp only [plusRems] at h
    split at h
    · rcases List.mem_cons.mp h with h | h
      · exact ⟨[c], by simp [h]⟩
      · obtain ⟨pre, hp⟩ := ih rem h
        exact ⟨c :: pre, by simp [hp]⟩
    · simp at h

theorem matchRem_suffix (r : Regex) :
    ∀ cs rem, rem ∈ matchRem r cs → ∃ pre, pre ++ rem = cs := by
  induction r with
  | lit s =>
    intro cs rem h
    simp only [matchRem] at h
    split at h
    · rcases List.mem_singleton.mp h with h
      exact ⟨cs.take s.data.length, by rw [h, List.take_append_drop]⟩
    · simp at h
  | opt r ih =>
    intro cs rem h
    rcases List.mem_cons.mp h with h | h
    · exact ⟨[], by simp [h]⟩
    · exact ih cs rem h
  | cat a b iha ihb =>
    intro cs rem h
    simp only [matchRem, List.mem_flatMap] at h
    obtain ⟨mid, hmid, hrem⟩ := h
    obtain ⟨p1, hp1⟩ := iha cs mid hmid
    obtain ⟨p2, hp2⟩ := ihb mid rem hrem
    exact ⟨p1 ++ p2, by rw [List.append_assoc, hp2, hp1]⟩
  | plusCls p =>
    intro cs rem h
    exact plusRems_suffix p cs rem h

theorem matchRem_cat_elim (a b : Regex) (cs rem : List Char)
    (h : rem ∈ matchRem (.cat a b) cs) :
    ∃ mid, mid ∈ matchRem a cs ∧ rem ∈ matchRem b mid := by
  simpa [matchRem, List.mem_flatMap] using h

theorem matchRem_lit_elim (s : String) (cs rem : List Char)
    (h : rem ∈ matchRem (.lit s) cs) : leadsWith s.data cs = true := by
  simp only [matchRem] at h
  split at h
  · assumption
  · simp at h

theorem regexSearch_elim (r : Regex) (cs : List Char)
    (h : regexSearch r cs = true) :
    ∃ t rem, (∃ p, p ++ t = cs) ∧ rem ∈ matchRem r t := by
  simp only [regexSearch, List.any_eq_true, Bool.not_eq_true'] at h
  obtain ⟨t, ht, hm⟩ := h
  have hne : matchRem r t ≠ [] := by
    intro hnil
    rw [hnil] at hm
    simp at hm
  obtain ⟨rem, hrem⟩ := List.exists_mem_of_ne_nil _ hne
  exact ⟨t, rem, mem_tailsL cs t ht, hrem⟩

/-- Any string matched by the first playlist pattern contains list= as a
substring (the pattern carries it as a literal). -/
theorem pattern1_contains (cs : List Char)
    (h : regexSearch playlistPattern1 cs = true) :
    containsSub ("list=".data) cs = true := by
  obtain ⟨t, rem, ⟨p0, hp0⟩, hrem⟩ := regexSearch_elim _ cs h
  obtain ⟨m1, hm1, hrem1⟩ := matchRem_cat_elim _ _ _ _ hrem
  obtain ⟨m2, hm2, hrem2⟩ := matchRem_cat_elim _ _ _ _ hrem1
  obtain ⟨m3, hm3, _⟩ := matchRem_cat_elim _ _ _ _ hrem2
  have hlead := matchRem_lit_elim _ _ _ hm3
  have hin2 : containsSub ("list=".data) m2 = true :=
    containsSub_of_leadsWith _ _ _ (by decide) hlead
  obtain ⟨qa, hqa⟩ := matchRem_suffix _ _ _ hm1
  obtain ⟨qb, hqb⟩ := matchRem_suffix _ _ _ hm2
  rw [← hp0, ← hqa, ← hqb]
  exact containsSub_append_left _ p0 _ (containsSub_append_left _ qa _
    (containsSub_append_left _ qb _ hin2))

/-- Any string matched by the second playlist pattern contains list= as a
substring (the pattern carries the literal ampersand-list=). -/
theorem pattern2_contains (cs : List Char)
    (h : regexSearch playlistPattern2 cs = true) :
    containsSub ("list=".data) cs = true := by
  obtain ⟨t, rem, ⟨p0, hp0⟩, hrem⟩ := regexSearch_elim _ cs h
  obtain ⟨m1, hm1, hrem1⟩ := matchRem_cat_elim _ _ _ _ hrem
  obtain ⟨m2, hm2, hrem2⟩ := matchRem_cat_elim _ _ _ _ hrem1
  obtain ⟨m3, hm3, hrem3⟩ := matchRem_cat_elim _ _ _ _ hrem2
  obtain ⟨m4, hm4, hrem4⟩ := matchRem_cat_elim _ _ _ _ hrem3
  obtain ⟨m5, hm5, _⟩ := matchRem_cat_elim _ _ _ _ hrem4
  have hlead := matchRem_lit_elim _ _ _ hm5
  have hin4 : containsSub ("list=".data) m4 = true :=
    containsSub_of_leadsWith _ _ _ (by decide) hlead
  obtain ⟨qa, hqa⟩ := matchRem_suffix _ _ _ hm1
  obtain ⟨qb, hqb⟩ := matchRem_suffix _ _ _ hm2
  obtain ⟨qc, hqc⟩ := matchRem_suffix _ _ _ hm3
  obtain ⟨qd, hqd⟩ := matchRem_suffix _ _ _ hm4
  rw [← hp0, ← hqa, ← hqb, ← hqc, ← hqd]
  exact containsSub_append_left _ p0 _ (containsSub_append_left _ qa _
    (containsSub_append_left _ qb _ (containsSub_append_left _ qc _
      (containsSub_append_left _ qd _ hin4))))

/-- C8: the URL classifier is_playlist is a total pure function on strings:
for every URL containing list= as a substring it returns true, and for every
other input it returns false (totality holds by construction of the
embedding). -/
theorem c8_is_playlist_iff_substring (url : String) :
    (containsSub ("list=".data) url.data = true → is_playlist url = true)
    ∧ (containsSub ("list=".data) url.data = false → is_playlist url = false) := by
  constructor
  · intro h
    simp [is_playlist, h]
  · intro h
    have h1 : regexSearch playlistPattern1 url.data = false := by
      cases hp : regexSearch playlistPattern1 url.data with
      | false => rfl
      | true => rw [pattern1_contains url.data hp] at h; exact absurd h (by simp)
    have h2 : regexSearch playlistPattern2 url.data = false := by
      cases hp : regexSearch playlistPattern2 url.data with
      | false => rfl
      | true => rw [pattern2_contains url.data hp] at h; exact absurd h (by simp)
    simp [is_playlist, h1, h2, h]

/-- Witness for C8 at two concrete URLs: one containing list= is classified
true, one without it classified false. -/
theorem c8_witness :
    is_playlist "https://www.youtube.com/watch?v=abc&list=xyz" = true
    ∧ is_playlist "https://www.youtube.com/watch?v=abc" = false :=
  ⟨(c8_is_playlist_iff_substring "https://www.youtube.com/watch?v=abc&list=xyz").1 (by decide),
   (c8_is_playlist_iff_substring "https://www.youtube.com/watch?v=abc").2 (by decide)⟩

/-- C9: is_playlist is extensionally equal to the simple substring predicate
list= in url; the regex stage never changes the outcome of the fallback
check. -/
theorem c9_is_playlist_refines_substring (url : String) :
    is_playlist url = simple_list_check url := by
  cases h : containsSub ("list=".data) url.data with
  | true =>
    have h1 : is_playlist url = true := by simp [is_playlist, h]
    rw [h1, simple_list_check, h]
  | false =>
    have h1 : regexSearch playlistPattern1 url.data = false := by
      cases hp : regexSearch playlistPattern1 url.data with
      | false => rfl
      | true => rw [pattern1_contains url.data hp] at h; exact absurd h (by simp)
    have h2 : regexSearch playlistPattern2 url.data = false := by
      cases hp : regexSearch playlistPattern2 url.data with
      | false => rfl
      | true => rw [pattern2_contains url.data hp] at h; exact absurd h (by simp)
    simp [is_playlist, simple_list_check, h1, h2, h]

/-! Lemmas about the playlist parsing loop. -/

theorem processLines_append (xs ys : List Line) :
    ∀ i : Nat, processLines i (xs ++ ys) =
      ((processLines i xs).1 ++ (processLines (i + xs.length) ys).1,
       (processLines i xs).2 ++ (processLines (i + xs.length) ys).2) := by
  induction xs with
  | nil => intro i; simp [processLines]
  | cons l rest ih =>
    intro i
    have harith : i + 1 + rest.length = i + (rest.length + 1) := by omega
    cases l with
    | emptyLine =>
      simp only [List.cons_append, processLines, List.append_eq, ih (i + 1),
        List.length_cons, harith]
    | malformed raw =>
      simp only [List.cons_append, processLines, List.append_eq, ih (i + 1),
        List.length_cons, harith]
    | parsed id title playlist_index =>
      simp only [List.cons_append, processLines, List.append_eq, ih (i + 1),
        List.length_cons, harith]

theorem processLines_url (ls : List Line) :
    ∀ (i : Nat) (rec : VideoRecord), rec ∈ (processLines i ls).1 →
      rec.url = "https://www.youtube.com/watch?v=" ++ pyOptStr rec.id := by
  induction ls with
  | nil => intro i rec h; simp [processLines] at h
  | cons l rest ih =>
    intro i rec h
    cases l with
    | emptyLine => exact ih (i + 1) rec h
    | malformed raw => exact ih (i + 1) rec h
    | parsed id title playlist_index =>
      simp only [processLines, List.mem_cons] at h
      rcases h with h | h
      · subst h; rfl
      · exact ih (i + 1) rec h

/-- C1 counterexample: a batch whose first line fails to parse and whose
second line parses but lacks a playlist_index.  The code assigns that record
the ordinal 2 (its 1-based raw line position), while the claim predicts
1 + 0 = 1 because no valid line precedes it. -/
theorem c1_counterexample :
    ((get_playlist_info
        (.completes 0 [Line.malformed "x", Line.parsed (some "a") none none] "")).1.map
      (fun r => r.filename_playlist_index)) = [some 2]
    ∧ ([Line.malformed "x", Line.parsed (some "a") none none].take 1).countP isValidLine = 0
    ∧ (2 : Nat) ≠ 1 + 0 :=
  ⟨rfl, by decide, by decide⟩

/-- C1 amended: in get_playlist_info, a well-formed record lacking an
authoritative index is assigned the ordinal 1 + the number of ALL preceding
lines of the batch (its 1-based raw position, counting malformed and empty
lines too, not only validly parsed ones), and that ordinal is stored as the
ordering index and used for the default title. -/
theorem c1_amended_ordinal (pre post : List Line) (id : Option String) (stderr : String) :
    (get_playlist_info (.completes 0 (pre ++ Line.parsed id none none :: post) stderr)).1 =
      (processLines 0 pre).1
        ++ lineRecord pre.length id none none :: (processLines (pre.length + 1) post).1
    ∧ (lineRecord pre.length id none none).filename_playlist_index = some (pre.length + 1)
    ∧ (lineRecord pre.length id none none).title
        = "Untitled Video " ++ toString (pre.length + 1) := by
  refine ⟨?_, rfl, rfl⟩
  have h0 : ¬((0 : Int) ≠ 0) := by decide
  have hne : ¬((pre ++ Line.parsed id none none :: post).isEmpty = true) := by
    simp [List.isEmpty_iff]
  simp only [get_playlist_info, if_neg h0, if_neg hne]
  rw [processLines_append]
  simp [processLines]

/-- C5: fetchPlaylist on non-zero exit code yields an empty list with a
surfaced error diagnostic, empty output yields an empty list with a warning,
a malformed line is skipped with a warning while the remaining lines still
produce records, and every other outcome (timeout, exception) also returns
an empty list rather than propagating the exception. -/
theorem c5_fetch_playlist_error_handling :
    (∀ (rc : Int) (lines : List Line) (stderr : String), rc ≠ 0 →
      (get_playlist_info (.completes rc lines stderr)).1 = []
      ∧ Msg.error ("Error fetching playlist info (yt-dlp exited with " ++ toString rc ++ "):")
          ∈ (get_playlist_info (.completes rc lines stderr)).2)
    ∧ (∀ stderr : String,
        (get_playlist_info (.completes 0 [] stderr)).1 = []
        ∧ Msg.warning
            "No output from yt-dlp for playlist info. The playlist might be empty or private."
          ∈ (get_playlist_info (.completes 0 [] stderr)).2)
    ∧ (∀ (pre post : List Line) (raw stderr : String),
        (get_playlist_info (.completes 0 (pre ++ Line.malformed raw :: post) stderr)).1 =
          (processLines 0 pre).1 ++ (processLines (pre.length + 1) post).1
        ∧ Msg.warning ("Could not parse video info line: " ++ raw)
            ∈ (get_playlist_info (.completes 0 (pre ++ Line.malformed raw :: post) stderr)).2)
    ∧ (get_playlist_info .timeout).1 = []
    ∧ (∀ m, (get_playlist_info (.exc m)).1 = []) := by
  refine ⟨?_, ?_, ?_, rfl, fun m => rfl⟩
  · intro rc lines stderr h
    constructor
    · simp [get_playlist_info, if_pos h]
    · simp only [get_playlist_info, if_pos h]
      exact List.mem_cons_self _ _
  · intro stderr
    have h0 : ¬((0 : Int) ≠ 0) := by decide
    simp only [get_playlist_info, if_neg h0]
    exact ⟨rfl, List.mem_singleton.mpr rfl⟩
  · intro pre post raw stderr
    have h0 : ¬((0 : Int) ≠ 0) := by decide
    have hne : ¬((pre ++ Line.malformed raw :: post).isEmpty = true) := by
      simp [List.isEmpty_iff]
    simp only [get_playlist_info, if_neg h0, if_neg hne]
    rw [processLines_append]
    constructor
    · simp [processLines]
    · simp only [processLines, List.mem_append]
      exact Or.inr (List.mem_cons_self _ _)

/-- Witness for C5 at a concrete failing invocation: exit code 1 with a
parseable line still yields no records and an error diagnostic. -/
theorem c5_witness :
    (get_playlist_info (.completes 1 [Line.parsed (some "a") none none] "boom")).1 = []
    ∧ Msg.error ("Error fetching playlist info (yt-dlp exited with " ++ toString (1 : Int) ++ "):")
        ∈ (get_playlist_info (.completes 1 [Line.parsed (some "a") none none] "boom")).2 :=
  c5_fetch_playlist_error_handling.1 1 [Line.parsed (some "a") none none] "boom" (by decide)

/-- C10: every record produced by get_playlist_info carries the constructed
watch URL built from its id field, which embeds the literal text None when
the id is absent, while get_single_video_info returns the unchanged original
URL unchanged. -/
theorem c10_constructed_urls :
    (∀ (lines : List Line) (stderr : String) (rec : VideoRecord),
      rec ∈ (get_playlist_info (.completes 0 lines stderr)).1 →
        rec.url = "https://www.youtube.com/watch?v=" ++ pyOptStr rec.id
        ∧ (rec.id = none → rec.url = "https://www.youtube.com/watch?v=None"))
    ∧ (∀ (url : String) (outcome : SingleFetchOutcome) (rec : VideoRecord),
        (get_single_video_info url outcome).1 = some rec → rec.url = url) := by
  constructor
  · intro lines stderr rec h
    have h0 : ¬((0 : Int) ≠ 0) := by decide
    simp only [get_playlist_info, if_neg h0] at h
    by_cases he : lines.isEmpty = true
    · rw [if_pos he] at h
      simp at h
    · rw [if_neg he] at h
      have hu := processLines_url lines 0 rec h
      exact ⟨hu, fun hid => by rw [hu, hid]; rfl⟩
  · intro url outcome rec h
    cases outcome with
    | completes rc stdout stderr =>
      simp only [get_single_video_info] at h
      by_cases hrc : rc ≠ 0
      · rw [if_pos hrc] at h
        simp at h
      · rw [if_neg hrc] at h
        cases stdout with
        | emptyOut => simp at h
        | malformed raw => simp at h
        | parsed id title =>
          simp only [Option.some.injEq] at h
          rw [← h]
    | timeout => simp [get_single_video_info] at h
    | exc m => simp [get_single_video_info] at h

/-- Witness for C10: a parsed line with no id yields the watch URL with the
literal None, and a concrete single-video fetch keeps the submitted URL. -/
theorem c10_witness :
    ((lineRecord 0 none none none).url
        = "https://www.youtube.com/watch?v=" ++ pyOptStr (lineRecord 0 none none none).id
      ∧ ((lineRecord 0 none none none).id = none →
          (lineRecord 0 none none none).url = "https://www.youtube.com/watch?v=None"))
    ∧ ({ id := some "abc123", title := "Test", url := "https://vid",
          filename_playlist_index := none } : VideoRecord).url = "https://vid" :=
  ⟨c10_constructed_urls.1 [Line.parsed none none none] "" (lineRecord 0 none none none)
      (by decide),
   c10_constructed_urls.2 "https://vid" (.completes 0 (.parsed (some "abc123") (some "Test")) "")
      { id := some "abc123", title := "Test", url := "https://vid",
        filename_playlist_index := none } rfl⟩

/-! Lemmas about the dict model and the UI state machine. -/

theorem dictGet_dictInsert_self (k : Option String) (v : JobStatus) :
    ∀ d, dictGet k (dictInsert k v d) = some v := by
  intro d
  induction d with
  | nil => simp [dictInsert, dictGet]
  | cons kv rest ih =>
    obtain ⟨k1, v1⟩ := kv
    by_cases h : k1 = k
    · simp [dictInsert, dictGet, h]
    · simp [dictInsert, dictGet, h, ih]

theorem dictGet_dictInsert_ne (j k : Option String) (v : JobStatus) (h : j ≠ k) :
    ∀ d, dictGet j (dictInsert k v d) = dictGet j d := by
  intro d
  induction d with
  | nil => simp [dictInsert, dictGet, Ne.symm h]
  | cons kv rest ih =>
    obtain ⟨k1, v1⟩ := kv
    by_cases h1 : k1 = k
    · subst h1
      simp [dictInsert, dictGet, Ne.symm h]
    · by_cases h2 : k1 = j
      · simp [dictInsert, dictGet, h1, h2, h]
      · simp [dictInsert, dictGet, h1, h2, ih]

theorem any_fst_dictInsert (k j : Option String) (v : JobStatus) :
    ∀ d : List (Option String × JobStatus),
      (dictInsert k v d).any (fun kv => kv.1 == j) =
        ((k == j) || d.any (fun kv => kv.1 == j)) := by
  intro d
  induction d with
  | nil => simp [dictInsert]
  | cons kv rest ih =>
    obtain ⟨k1, v1⟩ := kv
    by_cases h : k1 = k
    · subst h
      simp only [dictInsert, if_pos rfl, List.any_cons]
      cases hb : (k1 == j) <;> simp [hb]
    · simp only [dictInsert, if_neg h, List.any_cons, ih]
      cases hb : (k1 == j) <;> cases hc : (k == j) <;> simp [hb, hc]

theorem keysNodup_dictInsert (k : Option String) (v : JobStatus) :
    ∀ d, keysNodup d = true → keysNodup (dictInsert k v d) = true := by
  intro d
  induction d with
  | nil => intro _; simp [dictInsert, keysNodup]
  | cons kv rest ih =>
    obtain ⟨k1, v1⟩ := kv
    intro h
    simp only [keysNodup, Bool.and_eq_true, Bool.not_eq_true'] at h
    by_cases hk : k1 = k
    · subst hk
      simp only [dictInsert, if_pos rfl, keysNodup, Bool.and_eq_true, Bool.not_eq_true']
      exact h
    · simp only [dictInsert, if_neg hk, keysNodup, Bool.and_eq_true, Bool.not_eq_true']
      refine ⟨?_, ih h.2⟩
      rw [any_fst_dictInsert]
      have hkk : (k == k1) = false := beq_eq_false_iff_ne.mpr fun he => hk he.symm
      simp [hkk, h.1]

theorem statusOf_insert_self (s : SessionState) (k : Option String) (v : JobStatus) :
    statusOf { s with download_status := dictInsert k v s.download_status } k = v := by
  simp [statusOf, dictGet_dictInsert_self]

theorem statusOf_insert_ne (s : SessionState) (j k : Option String) (v : JobStatus)
    (h : j ≠ k) :
    statusOf { s with download_status := dictInsert k v s.download_status } j
      = statusOf s j := by
  simp [statusOf, dictGet_dictInsert_ne j k v h]

theorem rank_finishResult (fs : List String) (d : Option String) :
    rank (finishResult fs d).status = 2 := by
  cases d with
  | none => rfl
  | some p =>
    simp only [finishResult]
    split <;> rfl

theorem step_start_elim (s : SessionState) (k : Option String) (s' : SessionState)
    (h : step s (.startDownload k) = some s') :
    (statusOf s k).status = .pending
    ∧ s' = { s with download_status := dictInsert k ⟨.processing, none⟩ s.download_status } := by
  by_cases hg : (statusOf s k).status = .pending
  · simp only [step, if_pos hg] at h
    exact ⟨hg, (Option.some.inj h).symm⟩
  · simp only [step, if_neg hg] at h
    exact Option.noConfusion h

theorem step_finish_elim (s : SessionState) (k : Option String) (fs : List String)
    (dl : Option String) (s' : SessionState)
    (h : step s (.finishDownload k fs dl) = some s') :
    (statusOf s k).status = .processing
    ∧ s' = { s with download_status := dictInsert k (finishResult fs dl) s.download_status } := by
  by_cases hg : (statusOf s k).status = .processing
  · simp only [step, if_pos hg] at h
    exact ⟨hg, (Option.some.inj h).symm⟩
  · simp only [step, if_neg hg] at h
    exact Option.noConfusion h

/-- C3 counterexample: a fetch that adds one record to the working set
leaves the status store empty — no pending JobStatus entry is created for
the id of the record at the moment the record is added; the claimed entry does
not exist. -/
theorem c3_counterexample :
    step ⟨"", [], []⟩ (.fetch "https://pl" [⟨some "abc", "T", "https://x", some 1⟩])
      = some ⟨"https://pl", [⟨some "abc", "T", "https://x", some 1⟩], []⟩
    ∧ (⟨some "abc", "T", "https://x", some 1⟩ : VideoRecord)
        ∈ (⟨"https://pl", [⟨some "abc", "T", "https://x", some 1⟩], []⟩
            : SessionState).videos_to_process
    ∧ dictGet (some "abc")
        (⟨"https://pl", [⟨some "abc", "T", "https://x", some 1⟩], []⟩
          : SessionState).download_status = none :=
  ⟨rfl, List.mem_singleton.mpr rfl, rfl⟩

/-- C3 amended: the store is a dict keyed by video id, so it holds at most
one entry per id (no duplication); adding records to the working set resets
the store to empty and creates no entries — every id then reads as pending
only through the read-time default — and an entry is first created, with
status processing, when the user triggers the download of that video. -/
theorem c3_amended_store :
    (∀ (s : SessionState) (e : Event) (s' : SessionState), step s e = some s' →
        keysNodup s.download_status = true → keysNodup s'.download_status = true)
    ∧ (∀ (s : SessionState) (u : String) (vs : List VideoRecord) (s' : SessionState),
        step s (.fetch u vs) = some s' →
          s'.videos_to_process = vs ∧ s'.download_status = []
          ∧ ∀ k, statusOf s' k = ⟨.pending, none⟩)
    ∧ (∀ (s : SessionState) (k : Option String) (s' : SessionState),
        step s (.startDownload k) = some s' →
          dictGet k s'.download_status = some ⟨.processing, none⟩) := by
  refine ⟨?_, ?_, ?_⟩
  · intro s e s' h hN
    cases e with
    | fetch u vs =>
      simp only [step] at h
      rw [← Option.some.inj h]
      rfl
    | startDownload k =>
      obtain ⟨hg, hs'⟩ := step_start_elim s k s' h
      rw [hs']
      exact keysNodup_dictInsert _ _ _ hN
    | finishDownload k fs dl =>
      obtain ⟨hg, hs'⟩ := step_finish_elim s k fs dl s' h
      rw [hs']
      exact keysNodup_dictInsert _ _ _ hN
    | cleanDir =>
      simp only [step] at h
      rw [← Option.some.inj h]
      rfl
  · intro s u vs s' h
    simp only [step] at h
    rw [← Option.some.inj h]
    exact ⟨rfl, rfl, fun k => rfl⟩
  · intro s k s' h
    obtain ⟨hg, hs'⟩ := step_start_elim s k s' h
    rw [hs']
    exact dictGet_dictInsert_self k _ s.download_status

/-- Witness for C3 at concrete states: a fetch leaves an empty store, and a
user trigger creates the processing entry. -/
theorem c3_witness :
    (⟨"u", [⟨some "abc", "T", "https://x", some 1⟩], []⟩ : SessionState).download_status = []
    ∧ dictGet (some "abc")
        (⟨"", [], [(some "abc", ⟨.processing, none⟩)]⟩ : SessionState).download_status
      = some ⟨.processing, none⟩ :=
  ⟨(c3_amended_store.2.1 ⟨"", [], []⟩ "u" [⟨some "abc", "T", "https://x", some 1⟩]
      ⟨"u", [⟨some "abc", "T", "https://x", some 1⟩], []⟩ rfl).2.1,
   c3_amended_store.2.2 ⟨"", [], []⟩ (some "abc")
      ⟨"", [], [(some "abc", ⟨.processing, none⟩)]⟩ rfl⟩

/-- C6: per video id the status only ever moves forward along pending →
processing → terminal: a reset event (new fetch or directory cleanup)
returns every id to the initial pending default, and any other step never
lowers the rank of any id, leaves every id other than the acted-on one
unchanged (no automatic transitions), and cannot touch an id already in a
terminal state (no retries without a reset). -/
theorem c6_monotonic_status (s : SessionState) (e : Event) (s' : SessionState)
    (h : step s e = some s') :
    (isReset e = true → ∀ k, statusOf s' k = ⟨.pending, none⟩)
    ∧ (isReset e = false → ∀ k, rank (statusOf s k).status ≤ rank (statusOf s' k).status)
    ∧ (isReset e = false → ∀ k, some k ≠ eventKey e → statusOf s' k = statusOf s k)
    ∧ (isReset e = false → ∀ k, rank (statusOf s k).status = 2 → statusOf s' k = statusOf s k) := by
  cases e with
  | fetch u vs =>
    simp only [step] at h
    refine ⟨fun _ k => ?_, fun hf => by simp [isReset] at hf,
      fun hf => by simp [isReset] at hf, fun hf => by simp [isReset] at hf⟩
    rw [← Option.some.inj h]
    rfl
  | cleanDir =>
    simp only [step] at h
    refine ⟨fun _ k => ?_, fun hf => by simp [isReset] at hf,
      fun hf => by simp [isReset] at hf, fun hf => by simp [isReset] at hf⟩
    rw [← Option.some.inj h]
    rfl
  | startDownload k0 =>
    obtain ⟨hg, hs'⟩ := step_start_elim s k0 s' h
    subst hs'
    refine ⟨fun ht => by simp [isReset] at ht, fun _ k => ?_, fun _ k hk => ?_, fun _ k h2 => ?_⟩
    · by_cases hk : k = k0
      · subst hk
        rw [statusOf_insert_self, hg]
        decide
      · rw [statusOf_insert_ne s k k0 _ hk]
    · have hne : k ≠ k0 := fun he => hk (by rw [he]; rfl)
      exact statusOf_insert_ne s k k0 _ hne
    · by_cases hk : k = k0
      · subst hk
        rw [hg] at h2
        exact absurd h2 (by decide)
      · exact statusOf_insert_ne s k k0 _ hk
  | finishDownload k0 fs dl =>
    obtain ⟨hg, hs'⟩ := step_finish_elim s k0 fs dl s' h
    subst hs'
    refine ⟨fun ht => by simp [isReset] at ht, fun _ k => ?_, fun _ k hk => ?_, fun _ k h2 => ?_⟩
    · by_cases hk : k = k0
      · subst hk
        rw [statusOf_insert_self, hg, rank_finishResult]
        decide
      · rw [statusOf_insert_ne s k k0 _ hk]
    · have hne : k ≠ k0 := fun he => hk (by rw [he]; rfl)
      exact statusOf_insert_ne s k k0 _ hne
    · by_cases hk : k = k0
      · subst hk
        rw [hg] at h2
        exact absurd h2 (by decide)
      · exact statusOf_insert_ne s k k0 _ hk

/-- Witness for C6 at a concrete step: triggering one video raises its rank
and leaves the other stored id untouched. -/
theorem c6_witness :
    rank (statusOf ⟨"", [], [(some "w", ⟨.failed, some "m"⟩)]⟩ (some "v")).status
      ≤ rank (statusOf
          ⟨"", [], [(some "w", ⟨.failed, some "m"⟩), (some "v", ⟨.processing, none⟩)]⟩
          (some "v")).status
    ∧ statusOf ⟨"", [], [(some "w", ⟨.failed, some "m"⟩), (some "v", ⟨.processing, none⟩)]⟩
        (some "w")
      = statusOf ⟨"", [], [(some "w", ⟨.failed, some "m"⟩)]⟩ (some "w") :=
  ⟨(c6_monotonic_status ⟨"", [], [(some "w", ⟨.failed, some "m"⟩)]⟩
      (.startDownload (some "v"))
      ⟨"", [], [(some "w", ⟨.failed, some "m"⟩), (some "v", ⟨.processing, none⟩)]⟩
      rfl).2.1 rfl (some "v"),
   (c6_monotonic_status ⟨"", [], [(some "w", ⟨.failed, some "m"⟩)]⟩
      (.startDownload (some "v"))
      ⟨"", [], [(some "w", ⟨.failed, some "m"⟩), (some "v", ⟨.processing, none⟩)]⟩
      rfl).2.2.1 rfl (some "w") (by decide)⟩

/-- C2 counterexample: on a wait timeout the invoker returns none, and the
rerun records a failed status — but its payload is the fixed generic text
"Server download failed.", which mentions no timeout, so the job status does
not carry a timeout reason (the timeout text appears only in the transient
UI error emitted by the invoker). -/
theorem c2_counterexample :
    (download_video_yt_dlp "https://vid" "yt_dlp_downloads" none true true []
        (.waitTimeout [] [] true)).result = none
    ∧ step ⟨"u", [], [(some "v", ⟨.processing, none⟩)]⟩ (.finishDownload (some "v") [] none)
      = some ⟨"u", [], [(some "v", ⟨.failed, some "Server download failed."⟩)]⟩
    ∧ containsSub ("timed out".data) ("Server download failed.".data) = false
    ∧ containsSub ("timeout".data) ("Server download failed.".data) = false :=
  ⟨rfl, rfl, by decide, by decide⟩

/-- C2 amended: when process.wait raises the timeout (modelled as the
waitTimeout outcome of the bounded 600-second wait), download_video_yt_dlp
returns none, calls kill exactly when the process still runs, and emits a
timed-out error diagnostic; the subsequent status update records failed with
the generic reason "Server download failed." rather than a timeout-specific
one. -/
theorem c2_amended_timeout (url path : String) (idx : Option Nat) (mkOk : Bool)
    (fs fsCheck : List String) (so se : List String) (still : Bool)
    (s : SessionState) (k : Option String) (s' : SessionState) :
    ((download_video_yt_dlp url path idx true mkOk fs (.waitTimeout so se still)).result = none
      ∧ (download_video_yt_dlp url path idx true mkOk fs (.waitTimeout so se still)).killed = still
      ∧ Msg.error ("Download timed out for " ++ url
            ++ ". The video might be too large or network slow.")
          ∈ (download_video_yt_dlp url path idx true mkOk fs (.waitTimeout so se still)).msgs)
    ∧ (step s (.finishDownload k fsCheck none) = some s' →
        statusOf s' k = ⟨.failed, some "Server download failed."⟩) := by
  constructor
  · have hdir : ¬(¬(true : Bool) = true ∧ ¬(mkOk = true)) := fun hc => hc.1 rfl
    refine ⟨?_, ?_, ?_⟩
    · simp [download_video_yt_dlp, hdir]
    · simp [download_video_yt_dlp, hdir]
    · simp [download_video_yt_dlp, hdir]
  · intro h
    obtain ⟨hg, hs'⟩ := step_finish_elim s k fsCheck none s' h
    rw [hs']
    exact statusOf_insert_self s k _

/-- Witness for C2 at a concrete timed-out run: the invoker result is none,
the process is killed, and the recorded status is the generic failure. -/
theorem c2_witness :
    (download_video_yt_dlp "https://vid" "yt_dlp_downloads" none true true []
        (.waitTimeout ["fragment"] [] true)).result = none
    ∧ (download_video_yt_dlp "https://vid" "yt_dlp_downloads" none true true []
        (.waitTimeout ["fragment"] [] true)).killed = true
    ∧ statusOf ⟨"u", [], [(some "v", ⟨.failed, some "Server download failed."⟩)]⟩ (some "v")
      = ⟨.failed, some "Server download failed."⟩ :=
  ⟨(c2_amended_timeout "https://vid" "yt_dlp_downloads" none true [] []
      ["fragment"] [] true ⟨"", [], []⟩ none ⟨"", [], []⟩).1.1,
   (c2_amended_timeout "https://vid" "yt_dlp_downloads" none true [] []
      ["fragment"] [] true ⟨"", [], []⟩ none ⟨"", [], []⟩).1.2.1,
   (c2_amended_timeout "https://vid" "yt_dlp_downloads" none true [] []
      ["fragment"] [] true ⟨"u", [], [(some "v", ⟨.processing, none⟩)]⟩ (some "v")
      ⟨"u", [], [(some "v", ⟨.failed, some "Server download failed."⟩)]⟩).2 rfl⟩

/-! Lemmas for the download invoker claims. -/

theorem leadsWith_refl (a : List Char) : leadsWith a a = true := by
  induction a with
  | nil => rfl
  | cons c cs ih => simp [leadsWith, ih]

theorem leadsWith_append_same (a : List Char) :
    ∀ b c : List Char, leadsWith b c = true → leadsWith (a ++ b) (a ++ c) = true := by
  induction a with
  | nil => intro b c h; simpa using h
  | cons x xs ih =>
    intro b c h
    simp only [List.cons_append, leadsWith, Bool.and_eq_true]
    exact ⟨by simp, ih b c h⟩

/-- C4: with an existing destination directory, the invoker returns a path
exactly when the subprocess exited normally with code zero, printed at least
one non-empty output line, and the last printed line exists on disk — in
which case that last line is the returned path; otherwise it returns none
and the captured non-empty stdout/stderr streams are surfaced as
diagnostics. -/
theorem c4_download_success_iff (url path : String) (idx : Option Nat) (mkOk : Bool)
    (fs : List String) (rc : Int) (so se : List String) :
    (∀ p, (download_video_yt_dlp url path idx true mkOk fs (.completes rc so se)).result = some p
        ↔ rc = 0 ∧ stripLines so ≠ [] ∧ (stripLines so).getLastD "" = p
            ∧ fs.contains p = true)
    ∧ ((download_video_yt_dlp url path idx true mkOk fs (.completes rc so se)).result = none →
        (joinedOutput so ≠ "" →
          Msg.info ("yt-dlp stdout:\n" ++ joinedOutput so)
            ∈ (download_video_yt_dlp url path idx true mkOk fs (.completes rc so se)).msgs)
        ∧ (joinedOutput se ≠ "" →
          Msg.warning ("yt-dlp stderr:\n" ++ joinedOutput se)
            ∈ (download_video_yt_dlp url path idx true mkOk fs (.completes rc so se)).msgs)) := by
  simp only [download_video_yt_dlp, joinedOutput]
  split
  · next hcond => exact absurd (by trivial) hcond.1
  · split
    · next h1 =>
      split
      · next h2 =>
        constructor
        · intro p
          constructor
          · intro hp
            have hlast : (stripLines so).getLastD "" = p := Option.some.inj hp
            refine ⟨h1.1, by simpa [List.isEmpty_iff] using h1.2, hlast, ?_⟩
            rw [← hlast]
            simpa using h2
          · intro ⟨_, _, hc, _⟩
            exact congrArg some hc
        · intro hnone
          simp at hnone
      · next h2 =>
        constructor
        · intro p
          constructor
          · intro hp
            simp at hp
          · intro ⟨_, _, hc, hd⟩
            rw [← hc] at hd
            exact absurd (by simpa using hd) h2
        · intro _
          constructor
          · intro hso
            simp [hso, List.mem_append]
          · intro hse
            simp [hse, List.mem_append]
    · next h1 =>
      constructor
      · intro p
        constructor
        · intro hp
          simp at hp
        · intro ⟨ha, hb, _, _⟩
          exact absurd ⟨ha, by simpa [List.isEmpty_iff] using hb⟩ h1
      · intro _
        constructor
        · intro hso
          simp [hso, List.mem_append]
        · intro hse
          simp [hse, List.mem_append]

/-- Witness for C4 at concrete runs: a zero-exit run whose last line exists
on disk returns that line, and a failing exit surfaces both streams. -/
theorem c4_witness :
    (download_video_yt_dlp "u" "d" none true true ["d/f.mp4"]
        (.completes 0 ["aux line", "d/f.mp4"] [])).result = some "d/f.mp4"
    ∧ Msg.info ("yt-dlp stdout:\n" ++ joinedOutput ["out"])
        ∈ (download_video_yt_dlp "u" "d" none true true []
            (.completes 1 ["out"] ["err"])).msgs
    ∧ Msg.warning ("yt-dlp stderr:\n" ++ joinedOutput ["err"])
        ∈ (download_video_yt_dlp "u" "d" none true true []
            (.completes 1 ["out"] ["err"])).msgs :=
  ⟨((c4_download_success_iff "u" "d" none true ["d/f.mp4"] 0 ["aux line", "d/f.mp4"] []).1
      "d/f.mp4").mpr ⟨rfl, by decide, rfl, by decide⟩,
   ((c4_download_success_iff "u" "d" none true [] 1 ["out"] ["err"]).2 rfl).1 (by decide),
   ((c4_download_success_iff "u" "d" none true [] 1 ["out"] ["err"]).2 rfl).2 (by decide)⟩

/-- C7: the output template carries the literal index prefix before the
title placeholder when an ordering index is present (and equals exactly the
index, the separator, and the placeholders, with the extension left to the
external tool), is just the placeholders otherwise; the template is joined
under the destination directory into the issued command; and a failure to
create a missing destination directory is fatal to the single call,
returning none with an error. -/
theorem c7_output_template (i : Nat) (url path : String) (idx : Option Nat)
    (mkOk : Bool) (fs : List String) (outcome : DLOutcome) :
    output_template_str (some i) = toString i ++ " - %(title)s.%(ext)s"
    ∧ leadsWith ((toString i ++ " - ").data) ((output_template_str (some i)).data) = true
    ∧ output_template_str none = "%(title)s.%(ext)s"
    ∧ (download_video_yt_dlp url path idx false false fs outcome).result = none
    ∧ Msg.error ("Failed to create download directory " ++ path)
        ∈ (download_video_yt_dlp url path idx false false fs outcome).msgs
    ∧ Msg.caption ("yt-dlp command: " ++ String.intercalate " "
          (build_command url (ospath_join path (output_template_str idx))))
        ∈ (download_video_yt_dlp url path idx true mkOk fs outcome).msgs := by
  have hdirf : (¬(false : Bool) = true ∧ ¬(false : Bool) = true) := ⟨by simp, by simp⟩
  have hdirt : ¬(¬(true : Bool) = true ∧ ¬(mkOk = true)) := fun hc => hc.1 rfl
  refine ⟨rfl, ?_, rfl, ?_, ?_, ?_⟩
  · have hd : (output_template_str (some i)).data
        = (toString i).data ++ (" - %(title)s.%(ext)s").data :=
      String.data_append (toString i) " - %(title)s.%(ext)s"
    have hd2 : (toString i ++ " - ").data = (toString i).data ++ (" - ").data :=
      String.data_append (toString i) " - "
    rw [hd2, hd]
    exact leadsWith_append_same _ _ _ (by decide)
  · simp [download_video_yt_dlp, hdirf]
  · simp [download_video_yt_dlp, hdirf]
  · cases outcome with
    | completes rc so se =>
      simp only [download_video_yt_dlp]
      split
      · next hcond => exact absurd (by trivial) hcond.1
      · split
        · split
          · simp [List.mem_append]
          · simp [List.mem_append]
        · simp [List.mem_append]
    | waitTimeout so se still =>
      simp only [download_video_yt_dlp]
      split
      · next hcond => exact absurd (by trivial) hcond.1
      · simp [List.mem_append]
    | exc m =>
      simp only [download_video_yt_dlp]
      split
      · next hcond => exact absurd (by trivial) hcond.1
      · simp [List.mem_append]

end MediaDL
